import Mathlib

/-
Verification of the JSONLogic interpreter in src/jsonlogic.py (the
self-contained variant; src/jsonlogic/operators.py repeats the same operator
bodies).  The embedding models:

  * the JSON value tree (floats are omitted: no claim exercises them),
  * Python truthiness and Python `==` on that fragment,
  * the JSONPath string subclass of src/jsonlogic.py lines 85-111, whose
    constructor reads the class attribute `root` and demands a `'$.'` prefix,
  * the operator registry, argument splitting (`op_args`), dispatch
    (`_evaluate`), `maybe_evaluate`, and the operator bodies the claims touch
    (`var`, `if`, `===`, `!`, `!!`, `and`, `or`, `+`, `all`, `none`, `some`,
    `log`), driven by a step-indexed (fuel) evaluator.

The source threads a JSONPath string through every recursive call purely for
error attribution.  Constructing any JSONPath always raises (the module-level
`JSONPath.root = JSONPath('$')` itself fails; this is modelled faithfully by
`mkJSONPath`/`evaluate` below and settled by claim C1).  So that the remaining
claims about individual operators are not all collapsed into that one failure,
the evaluator `evalN` models the threaded path as the list of segments the
source's `join_path` calls would have denoted, while `op_var`'s own use of the
JSONPath constructor on its key argument - which is operator semantics, not
error attribution - is kept faithful, parametrised by the `root` class-attribute
state.
-/

namespace JsonLogic

/-- JSON values as used by src/jsonlogic.py (JSON = bool | int | float | str |
list | dict, plus None).  Python floats are not modelled; no claim exercises
them.  Objects are association lists with distinct keys (Python dicts). -/
inductive Value where
  | null
  | bool (b : Bool)
  | int (n : Int)
  | str (s : String)
  | arr (elems : List Value)
  | obj (entries : List (String × Value))

/-- Python `value is None`. -/
def isNull : Value → Bool
  | .null => true
  | _ => false

/-- Python truthiness (`bool(v)`): False, 0, empty string, empty list, empty
dict and None are falsy; everything else is truthy. -/
def truthy : Value → Bool
  | .null => false
  | .bool b => b
  | .int n => n != 0
  | .str s => s != ""
  | .arr xs => !xs.isEmpty
  | .obj kvs => !kvs.isEmpty

/-- Python dict lookup on the association-list model. -/
def lookupKey (k : String) : List (String × Value) → Option Value
  | [] => none
  | (k', v) :: rest => if k' == k then some v else lookupKey k rest

mutual

/-- Python `==` on the modelled fragment: True/False compare as 1/0 against
ints, None only equals None, no string/number coercion, lists elementwise,
dicts by key set.  This is the whole body of op_eq_eq (src/jsonlogic.py
lines 438-440): `return left == right`. -/
def pyEq : Value → Value → Bool
  | .null, .null => true
  | .bool a, .bool b => a == b
  | .bool a, .int n => (if a then (1 : Int) else 0) == n
  | .int n, .bool b => n == (if b then (1 : Int) else 0)
  | .int m, .int n => m == n
  | .str s, .str t => s == t
  | .arr xs, .arr ys => pyEqList xs ys
  | .obj xs, .obj ys => xs.length == ys.length && pyEqEntries xs ys
  | _, _ => false

/-- Python `==` on lists: equal lengths and elementwise equality. -/
def pyEqList : List Value → List Value → Bool
  | [], [] => true
  | x :: xs, y :: ys => pyEq x y && pyEqList xs ys
  | _, _ => false

/-- Python `==` on dicts, one direction: every entry of the first dict is
matched in the second (with equal lengths and distinct keys this is dict
equality). -/
def pyEqEntries : List (String × Value) → List (String × Value) → Bool
  | [], _ => true
  | (k, v) :: rest, ys =>
      (match lookupKey k ys with
       | some w => pyEq v w
       | none => false) && pyEqEntries rest ys

end

/-- is_jsonlogic (src/jsonlogic.py lines 55-76): the value is a dict with
exactly one key whose associated value is not None. -/
def is_jsonlogic : Value → Bool
  | .obj [(_, v)] => !(isNull v)
  | _ => false

/-- op_args (src/jsonlogic.py lines 78-83): take the first dict entry; a list
value supplies the argument slots, any other value is the sole argument.  The
fallback for a non-dict or empty dict (where Python would raise) is junk; all
call sites first establish is_jsonlogic. -/
def op_args : Value → String × List Value
  | .obj ((op, .arr xs) :: _) => (op, xs)
  | .obj ((op, v) :: _) => (op, [v])
  | _ => ("", [])

/-- One segment of the (idealised) evaluation path: `join_path(op)` appends a
key segment, `join_path(i)` an index segment. -/
inductive PathPart where
  | key (s : String)
  | idx (n : Nat)

/-- The idealised evaluation path: the list of segments the source's
`join_path` calls would have denoted. -/
abbrev Path := List PathPart

/-- The exceptions the modelled code can raise.  outOfFuel is the step-index
artefact of the model, never an exception of the source. -/
inductive Err where
  | outOfFuel
  | attributeError
  | valueError
  | typeError
  | keyError
  | indexError
  | nullDataAccess
  | notModelled
  | unrecognizedOperand (wherePath : Path) (op : String)

/-- The data context: either a JSON value or the NullData object of
src/jsonlogic.py lines 126-141, which raises NullDataAccess on any access. -/
inductive Data where
  | val (v : Value)
  | nullData

/-- JSONPath.__new__ (src/jsonlogic.py lines 88-92), modelling the Python str
as its character list.  `root` is the state of the ClassVar `JSONPath.root`:
`none` while unassigned (reading it raises AttributeError), `some r` if it
held the string r.  On success the constructor demands that the path start
with `str(root) + "."`. -/
def mkJSONPath (root : Option (List Char)) (path : List Char) : Except Err (List Char) :=
  match root with
  | none => .error .attributeError
  | some r => if (r ++ ['.']).isPrefixOf path then .ok path else .error .valueError

/-- The exception mkJSONPath raises for a path that fails the prefix test
(every path of interest does), as a function of the root state. -/
def rootFailure : Option (List Char) → Err
  | none => .attributeError
  | some _ => .valueError

/-- The module-level initialisation `JSONPath.root = JSONPath('$')`
(src/jsonlogic.py line 111): the right-hand side runs __new__ while `root` is
still unassigned. -/
def initJSONPathRoot : Except Err (List Char) :=
  mkJSONPath none ['$']

/-- Python `value[part]` for a single-character string part, as performed by
op_var's segment walk: dict lookup (KeyError when absent); lists, strings and
atoms reject string subscripts with TypeError. -/
def lookupPart : Value → Char → Except Err Value
  | .obj kvs, c =>
      match lookupKey (String.mk [c]) kvs with
      | some w => .ok w
      | none => .error .keyError
  | _, _ => .error .typeError

/-- Python `value[part]` when the current value is the data context itself:
NullData raises NullDataAccess on any access. -/
def dataLookupPart : Data → Char → Except Err Value
  | .val v, c => lookupPart v c
  | .nullData, _ => .error .nullDataAccess

/-- The `for part in key_path: value = value[part]` loop of op_var
(src/jsonlogic.py lines 358-361).  Iterating the JSONPath - a str subclass -
yields its characters, not its dotted segments.  The looked-up values are
discarded by the source (`return data` follows), so only success or the raised
exception matters. -/
def varWalk : Data → List Char → Except Err Unit
  | _, [] => .ok ()
  | d, c :: cs =>
      match dataLookupPart d c with
      | .ok v => varWalk (.val v) cs
      | .error e => .error e

/-- Contents of the data context once it is to be returned whole. -/
def dataToValue : Data → Value
  | .val v => v
  | .nullData => .null

/-- Python sequence-index validity: `seq[n]` succeeds iff -len <= n < len. -/
def seqIndexOk (n : Int) (len : Nat) : Bool :=
  decide (-(len : Int) ≤ n ∧ n < (len : Int))

/-- The integer-key branch of op_var (src/jsonlogic.py lines 363-371): if the
data is a Sequence the index is evaluated and the result *discarded*; control
falls off the end of the function and returns None.  An out-of-range index
(IndexError) and a non-Sequence data (the raised KeyError) are caught and give
the default.  NullData is a Mapping, not a Sequence, so it takes the KeyError
branch without being accessed. -/
def varSeqIndex (data : Data) (n : Int) (dflt : Option Value) : Except Err Value :=
  match data with
  | .val (.arr xs) => if seqIndexOk n xs.length then .ok .null else .ok (dflt.getD .null)
  | .val (.str s) => if seqIndexOk n s.length then .ok .null else .ok (dflt.getD .null)
  | _ => .ok (dflt.getD .null)

/-- op_var (src/jsonlogic.py lines 353-371).  A string key is fed to the
JSONPath constructor (whose failure, ValueError or AttributeError, is not
caught by the `except (KeyError, IndexError)` clause); if construction
succeeded the character walk runs, KeyError/IndexError fall to the default,
and on success the function returns `data` - the whole context, not the
resolved value.  A bool key is an int to Python's isinstance.  Any other key
type fails the type_check decorator's int|str test. -/
def op_var (root : Option (List Char)) (data : Data) (key : Value) (dflt : Option Value) :
    Except Err Value :=
  match key with
  | .str s =>
      (match mkJSONPath root s.data with
       | .error e => .error e
       | .ok parts =>
         match varWalk data parts with
         | .ok _ => .ok (dataToValue data)
         | .error .keyError => .ok (dflt.getD .null)
         | .error .indexError => .ok (dflt.getD .null)
         | .error e => .error e)
  | .int n => varSeqIndex data n dflt
  | .bool b => varSeqIndex data (if b then 1 else 0) dflt
  | _ => .error .typeError

/-- The operator names registered in _op_fns by the @op_fn decorations of
src/jsonlogic.py, in source order. -/
def registeredOps : List String :=
  ["var", "missing", "missing_some", "if", "==", "===", "!=", "!==", "!", "!!",
   "and", "or", "<", "<=", ">", ">=", "max", "min", "+", "-", "*", "/", "%",
   "map", "filter", "reduce", "all", "none", "some", "merge", "in", "cat",
   "substr", "log"]

/-- Shape of the recursive evaluator handed to the operator bodies. -/
abbrev EvalFn := Data → Path → Value → Except Err Value

/-- maybe_evaluate (src/jsonlogic.py lines 201-207): evaluate the value if it
is syntactically JSONLogic, otherwise return it unchanged. -/
def maybe_evaluate (ev : EvalFn) (data : Data) (path : Path) (v : Value) : Except Err Value :=
  if is_jsonlogic v then ev data path v else .ok v

/-- The evaluate_args=True wrapper of op_fn (src/jsonlogic.py lines 312-316):
maybe_evaluate every argument slot at path.join_path(op).join_path(i).  The
base path already carries the op segment. -/
def evalArgsLoop (me : Path → Value → Except Err Value) (base : Path) :
    Nat → List Value → Except Err (List Value)
  | _, [] => .ok []
  | i, a :: rest =>
      match me (base ++ [PathPart.idx i]) a with
      | .error e => .error e
      | .ok v =>
        match evalArgsLoop me base (i + 1) rest with
        | .error e => .error e
        | .ok vs => .ok (v :: vs)

/-- The while loop of op_and (src/jsonlogic.py lines 458-469): while more than
one operand remains, evaluate the head and return it if falsy; the final
operand's evaluation is returned whatever it is.  The empty case is
unreachable (the signature demands two operands). -/
def op_and_loop (me : Path → Value → Except Err Value) (path : Path) :
    Nat → List Value → Except Err Value
  | i, [a] => me (path ++ [PathPart.idx i]) a
  | i, a :: rest =>
      match me (path ++ [PathPart.idx i]) a with
      | .error e => .error e
      | .ok v => if truthy v then op_and_loop me path (i + 1) rest else .ok v
  | _, [] => .error .typeError

/-- The while loop of op_or (src/jsonlogic.py lines 471-482), dual to
op_and_loop: return the first truthy evaluated operand, else the last
evaluated operand. -/
def op_or_loop (me : Path → Value → Except Err Value) (path : Path) :
    Nat → List Value → Except Err Value
  | i, [a] => me (path ++ [PathPart.idx i]) a
  | i, a :: rest =>
      match me (path ++ [PathPart.idx i]) a with
      | .error e => .error e
      | .ok v => if truthy v then .ok v else op_or_loop me path (i + 1) rest
  | _, [] => .error .typeError

/-- op_if (src/jsonlogic.py lines 389-403), on its full operand list
(if_arg, then_arg, *elses); fewer than two operands fail the Python binding
with TypeError.  The source evaluates the condition; if truthy it returns the
evaluated then-branch.  Otherwise, with no further operands it returns None;
with exactly one further operand it returns
`maybe_evaluate(..., then_arg)` - the then-branch again, not the else branch
(the `case 1` arm of the source names then_arg); with two or more it recurses
on them.  `offset` stays 0 throughout in the source and is inlined here. -/
def op_if (me : Path → Value → Except Err Value) (path : Path) :
    List Value → Except Err Value
  | c :: t :: elses =>
      (match me (path ++ [PathPart.idx 0]) c with
       | .error e => .error e
       | .ok cv =>
         if truthy cv then me (path ++ [PathPart.idx 1]) t
         else
           match elses with
           | [] => .ok .null
           | [_] => me (path ++ [PathPart.idx 2]) t
           | _ :: _ :: _ => op_if me path elses)
  | _ => .error .typeError

/-- The per-element evaluation of op_all/op_none/op_some (src/jsonlogic.py
lines 615-648): the test expression is evaluated via _evaluate with the
element as the data context; the whole list is built before any/all runs, so
the first error propagates. -/
def testEachLoop (ev : EvalFn) (path : Path) (testFn : Value) :
    Nat → List Value → Except Err (List Value)
  | _, [] => .ok []
  | i, el :: rest =>
      match ev (.val el) (path ++ [PathPart.idx i]) testFn with
      | .error e => .error e
      | .ok r =>
        match testEachLoop ev path testFn (i + 1) rest with
        | .error e => .error e
        | .ok rs => .ok (r :: rs)

/-- op_all (src/jsonlogic.py lines 605-618): first argument must evaluate to a
list, second must be JSONLogic; true iff every test result is truthy. -/
def op_all (ev : EvalFn) (data : Data) (path : Path) (argExpr testFn : Value) :
    Except Err Value :=
  match maybe_evaluate ev data (path ++ [PathPart.idx 0]) argExpr with
  | .error e => .error e
  | .ok (.arr xs) =>
      if is_jsonlogic testFn then
        match testEachLoop ev path testFn 0 xs with
        | .error e => .error e
        | .ok results => .ok (.bool (results.all truthy))
      else .error .typeError
  | .ok _ => .error .typeError

/-- op_none (src/jsonlogic.py lines 620-633): same traversal, `not any(...)`. -/
def op_none (ev : EvalFn) (data : Data) (path : Path) (argExpr testFn : Value) :
    Except Err Value :=
  match maybe_evaluate ev data (path ++ [PathPart.idx 0]) argExpr with
  | .error e => .error e
  | .ok (.arr xs) =>
      if is_jsonlogic testFn then
        match testEachLoop ev path testFn 0 xs with
        | .error e => .error e
        | .ok results => .ok (.bool (!(results.any truthy)))
      else .error .typeError
  | .ok _ => .error .typeError

/-- op_some (src/jsonlogic.py lines 635-648): the source's body is identical
to op_none's - it also returns `not any([...])`, not `any([...])`. -/
def op_some (ev : EvalFn) (data : Data) (path : Path) (argExpr testFn : Value) :
    Except Err Value :=
  match maybe_evaluate ev data (path ++ [PathPart.idx 0]) argExpr with
  | .error e => .error e
  | .ok (.arr xs) =>
      if is_jsonlogic testFn then
        match testEachLoop ev path testFn 0 xs with
        | .error e => .error e
        | .ok results => .ok (.bool (!(results.any truthy)))
      else .error .typeError
  | .ok _ => .error .typeError

/-- The reduce(py_op.add, args, 0) fold of op_add (src/jsonlogic.py line 531):
Python's + treats True/False as 1/0; adding anything non-numeric to an int
raises TypeError.  Floats are outside the model. -/
def addAll : Int → List Value → Except Err Int
  | acc, [] => .ok acc
  | acc, v :: rest =>
      match v with
      | .int n => addAll (acc + n) rest
      | .bool b => addAll (acc + (if b then 1 else 0)) rest
      | _ => .error .typeError

/-- The body of _evaluate after op_args (src/jsonlogic.py lines 194-199)
together with the op_fn wrappers: look the operator up in the registry
(unknown operator: UnrecognizedOperand carrying the current path and the
name), evaluate the argument slots when the operator's evaluate_args policy
says so, enforce the Python-level arity of the operator function (a mismatch
raises TypeError), and run the operator body.  Registered operators outside
the claims' scope are not modelled and return the notModelled marker; no
theorem depends on them. -/
def dispatchOp (root : Option (List Char)) (ev : EvalFn) (data : Data) (path : Path)
    (op : String) (args : List Value) : Except Err Value :=
  if registeredOps.contains op then
    match op with
    | "var" =>
        (match evalArgsLoop (maybe_evaluate ev data) (path ++ [PathPart.key op]) 0 args with
         | .error e => .error e
         | .ok [k] => op_var root data k none
         | .ok [k, d] => op_var root data k (some d)
         | .ok _ => .error .typeError)
    | "if" => op_if (maybe_evaluate ev data) path args
    | "===" =>
        (match evalArgsLoop (maybe_evaluate ev data) (path ++ [PathPart.key op]) 0 args with
         | .error e => .error e
         | .ok [a, b] => .ok (.bool (pyEq a b))
         | .ok _ => .error .typeError)
    | "!" =>
        (match evalArgsLoop (maybe_evaluate ev data) (path ++ [PathPart.key op]) 0 args with
         | .error e => .error e
         | .ok [a] => .ok (.bool (!truthy a))
         | .ok _ => .error .typeError)
    | "!!" =>
        (match evalArgsLoop (maybe_evaluate ev data) (path ++ [PathPart.key op]) 0 args with
         | .error e => .error e
         | .ok [a] => .ok (.bool (truthy a))
         | .ok _ => .error .typeError)
    | "and" =>
        if args.length < 2 then .error .typeError
        else op_and_loop (maybe_evaluate ev data) path 0 args
    | "or" =>
        if args.length < 2 then .error .typeError
        else op_or_loop (maybe_evaluate ev data) path 0 args
    | "+" =>
        (match evalArgsLoop (maybe_evaluate ev data) (path ++ [PathPart.key op]) 0 args with
         | .error e => .error e
         | .ok [.str _] => .error .notModelled
         | .ok eargs =>
           match addAll 0 eargs with
           | .error e => .error e
           | .ok n => .ok (.int n))
    | "all" =>
        (match args with
         | [aE, tF] => op_all ev data path aE tF
         | _ => .error .typeError)
    | "none" =>
        (match args with
         | [aE, tF] => op_none ev data path aE tF
         | _ => .error .typeError)
    | "some" =>
        (match args with
         | [aE, tF] => op_some ev data path aE tF
         | _ => .error .typeError)
    | "log" =>
        (match args with
         | [a] => .ok a
         | _ => .error .typeError)
    | _ => .error .notModelled
  else .error (.unrecognizedOperand path op)

/-- _evaluate (src/jsonlogic.py lines 183-199) driven by a step index: split
the single-key object into operator and argument slots, then dispatch.  The
fuel bounds recursion depth only; outOfFuel never arises in any theorem. -/
def evalN (root : Option (List Char)) : Nat → Data → Path → Value → Except Err Value
  | 0, _, _, _ => .error .outOfFuel
  | fuel + 1, data, path, jl =>
      let oa := op_args jl
      dispatchOp root (fun d p v => evalN root fuel d p v) data path oa.1 oa.2

/-- evaluate (src/jsonlogic.py lines 159-163): construct the root path with
`JSONPath('$')` and forward to _evaluate.  The construction consults the
`root` class attribute, so the whole entry point is parametrised by that
state. -/
def evaluate (root : Option (List Char)) (fuel : Nat) (data : Data) (jl : Value) :
    Except Err Value :=
  match mkJSONPath root ['$'] with
  | .error e => .error e
  | .ok _ => evalN root fuel data [] jl

/-- eval (src/jsonlogic.py lines 165-173): evaluate with the NullData
context. -/
def evalPure (root : Option (List Char)) (fuel : Nat) (jl : Value) : Except Err Value :=
  evaluate root fuel .nullData jl

/-- No string of the form r + "." is a prefix of a one-character string other
than ".": in particular neither of "$" (the root path) nor of any
single-character var key. -/
theorem append_dot_not_pref (r : List Char) (c : Char) (h : c ≠ '.') :
    (r ++ ['.']).isPrefixOf [c] = false := by
  cases r with
  | nil =>
      have h1 : (([] : List Char) ++ ['.']).isPrefixOf [c] = ('.' == c && true) := rfl
      rw [h1, Bool.and_true, beq_eq_false_iff_ne]
      exact fun hc => h hc.symm
  | cons a t =>
      have h1 : ((a :: t) ++ ['.']).isPrefixOf [c]
          = (a == c && (t ++ ['.']).isPrefixOf []) := rfl
      have h2 : (t ++ ['.']).isPrefixOf ([] : List Char) = false := by
        cases t <;> rfl
      rw [h1, h2, Bool.and_false]

/-- mkJSONPath applied to the root string "$" fails for every possible state
of the `root` class attribute. -/
theorem mkJSONPath_root_fails (root : Option (List Char)) :
    mkJSONPath root ['$'] = .error (rootFailure root) := by
  cases root with
  | none => rfl
  | some r =>
      simp only [mkJSONPath, rootFailure, append_dot_not_pref r '$' (by decide),
        Bool.false_eq_true, if_false]

/-- C1: for every data context and every syntactically valid JSONLogic input,
the top-level evaluate function raises before any operator is dispatched and
never returns a value.  The first conjunct is the module-level initialisation
`JSONPath.root = JSONPath('$')` itself raising AttributeError (the constructor
reads the still-unassigned class attribute); the second shows that for *every*
state of the root attribute - unassigned, or any string it could have held -
`evaluate`'s construction of JSONPath('$') raises (AttributeError when
unassigned, else ValueError from the missing '$.' prefix), so _evaluate and
the operator registry are never reached. -/
theorem c1_evaluate_always_raises :
    initJSONPathRoot = .error .attributeError ∧
    ∀ (root : Option (List Char)) (fuel : Nat) (data : Data) (jl : Value),
      evaluate root fuel data jl = .error (rootFailure root) := by
  refine ⟨rfl, ?_⟩
  intro root fuel data jl
  simp only [evaluate, mkJSONPath_root_fails root]

/-- C2: evidence that the var operator never resolves a path.  On the claim's
own example, evaluate({"var": "a"}, {"a": 1, "b": 2}), the key "a" is fed to
the JSONPath constructor inside op_var: with the module-faithful root state
(unassigned) this raises AttributeError, and even granting the intended root
"$" it raises ValueError because "a" does not start with "$.", so the claimed
result 1 is never produced.  The third conjunct is the integer-key case on the
test suite's own data (test_operators.py line 14 expects 'f'): the source
discards the indexed element and falls off the end of the function, returning
None instead of the element. -/
theorem c2_var_never_resolves :
    evalN none 1 (.val (.obj [("a", .int 1), ("b", .int 2)])) []
        (.obj [("var", .str "a")]) = .error .attributeError ∧
    evalN (some ['$']) 1 (.val (.obj [("a", .int 1), ("b", .int 2)])) []
        (.obj [("var", .str "a")]) = .error .valueError ∧
    evalN (some ['$']) 1 (.val (.arr [.str "d", .str "e", .str "f"])) []
        (.obj [("var", .int 2)]) = .ok .null := by
  refine ⟨rfl, rfl, rfl⟩

/-- C3: evidence on the if operator.  With a false condition and exactly one
else branch the source's `case 1` arm returns the *then* branch again, so
evaluate({"if": [False, "a", "b"]}) yields "a" where the claim (and the
source's own test, test_operators.py line 58) demands "b".  The second
conjunct is the true-condition case, which does behave as claimed. -/
theorem c3_if_false_returns_then_branch :
    (∀ root : Option (List Char),
      evalN root 1 .nullData [] (.obj [("if", .arr [.bool false, .str "a", .str "b"])])
        = .ok (.str "a")) ∧
    (∀ root : Option (List Char),
      evalN root 1 .nullData [] (.obj [("if", .arr [.bool true, .str "a", .str "b"])])
        = .ok (.str "a")) := by
  exact ⟨fun root => rfl, fun root => rfl⟩

/-- C4: evidence on the some operator.  The predicate {"!": [false]} evaluates
to true on every element, so on [1, 2] the claim demands some = true; the
source's op_some computes `not any([...])` - the same body as op_none - and
returns false.  The second and third conjuncts show none and all on the same
input behaving as the claim's parenthetical states (none = false, all = true),
so the divergence is confined to some. -/
theorem c4_some_behaves_like_none :
    (∀ root : Option (List Char),
      evalN root 2 .nullData []
        (.obj [("some", .arr [.arr [.int 1, .int 2], .obj [("!", .arr [.bool false])]])])
        = .ok (.bool false)) ∧
    (∀ root : Option (List Char),
      evalN root 2 .nullData []
        (.obj [("none", .arr [.arr [.int 1, .int 2], .obj [("!", .arr [.bool false])]])])
        = .ok (.bool false)) ∧
    (∀ root : Option (List Char),
      evalN root 2 .nullData []
        (.obj [("all", .arr [.arr [.int 1, .int 2], .obj [("!", .arr [.bool false])]])])
        = .ok (.bool true)) := by
  exact ⟨fun root => rfl, fun root => rfl, fun root => rfl⟩

/-- C5: evidence on the === operator.  The source's op_eq_eq is the native
Python `left == right`, under which True == 1 holds, so
evaluate({"===": [True, 1]}) is True where the claim (and the source's own
test, test_operators.py line 132) demands False.  The second conjunct is the
claim's other example, {"===": [1, "1"]} is False, which the native equality
does satisfy. -/
theorem c5_strict_eq_is_python_eq :
    (∀ root : Option (List Char),
      evalN root 1 .nullData [] (.obj [("===", .arr [.bool true, .int 1])])
        = .ok (.bool true)) ∧
    (∀ root : Option (List Char),
      evalN root 1 .nullData [] (.obj [("===", .arr [.int 1, .str "1"])])
        = .ok (.bool false)) := by
  constructor
  · intro root
    have h1 : evalN root 1 .nullData [] (.obj [("===", .arr [.bool true, .int 1])])
        = .ok (.bool (pyEq (.bool true) (.int 1))) := rfl
    have h2 : pyEq (.bool true) (.int 1) = true := by simp [pyEq]
    rw [h1, h2]
  · intro root
    have h1 : evalN root 1 .nullData [] (.obj [("===", .arr [.int 1, .str "1"])])
        = .ok (.bool (pyEq (.int 1) (.str "1"))) := rfl
    have h2 : pyEq (.int 1) (.str "1") = false := by simp [pyEq]
    rw [h1, h2]

/-- C7: evidence on pure evaluation.  First conjunct: through the real entry
point (eval forwards to evaluate), even the data-free expression
{"+": [1, 2]} raises at the root-path construction for every root state, so
evaluate_pure({"+": [1, 2]}) == 3 never holds.  The remaining conjuncts grant
the idealised path threading: {"+": [1, 2]} then does evaluate to 3, but
{"var": "a"} raises AttributeError (module-faithful root state) or ValueError
(root granted as "$") from the JSONPath constructor applied to the key "a" -
the NullData context is never read, so NullDataAccess, the error the claim
demands, is never raised. -/
theorem c7_pure_eval_never_null_data_access :
    (∀ (root : Option (List Char)) (fuel : Nat),
      evalPure root fuel (.obj [("+", .arr [.int 1, .int 2])])
        = .error (rootFailure root)) ∧
    (evalN (some ['$']) 1 .nullData [] (.obj [("+", .arr [.int 1, .int 2])])
        = .ok (.int 3)) ∧
    (evalN none 1 .nullData [] (.obj [("var", .str "a")]) = .error .attributeError) ∧
    (evalN (some ['$']) 1 .nullData [] (.obj [("var", .str "a")]) = .error .valueError) := by
  refine ⟨?_, rfl, rfl, rfl⟩
  intro root fuel
  simp only [evalPure, evaluate, mkJSONPath_root_fails root]

/-- C8: evidence on the log operator.  It is registered with
evaluate_args=False and its body prints and returns its argument as received,
so for the JSONLogic argument {"+": [1, 2, 3]} the raw expression object comes
back instead of its value 6 (the source's own test, test_operators.py
line 350, asserts 6).  The second conjunct shows the same expression
evaluating to 6 when dispatched directly, so the returned object is indeed
the unevaluated argument. -/
theorem c8_log_returns_raw_argument :
    (∀ root : Option (List Char),
      evalN root 1 .nullData [] (.obj [("log", .obj [("+", .arr [.int 1, .int 2, .int 3])])])
        = .ok (.obj [("+", .arr [.int 1, .int 2, .int 3])])) ∧
    (∀ root : Option (List Char),
      evalN root 1 .nullData [] (.obj [("+", .arr [.int 1, .int 2, .int 3])])
        = .ok (.int 6)) := by
  exact ⟨fun root => rfl, fun root => rfl⟩

/-- maybe_evaluate returns a value that is not syntactically JSONLogic
unchanged, without consulting the evaluator. -/
theorem maybe_evaluate_lit (ev : EvalFn) (data : Data) (p : Path) (v : Value)
    (h : is_jsonlogic v = false) : maybe_evaluate ev data p v = .ok v := by
  simp [maybe_evaluate, h]

/-- The op_and loop, fed a literal truthy prefix and then a literal falsy
operand, returns that operand at once; whatever follows it is never
examined. -/
theorem op_and_loop_first_falsy (ev : EvalFn) (data : Data) (path : Path)
    (pre : List Value) (x : Value) (rest : List Value)
    (hpre : ∀ y ∈ pre, is_jsonlogic y = false ∧ truthy y = true)
    (hx : is_jsonlogic x = false) (hxf : truthy x = false) :
    ∀ i : Nat, op_and_loop (maybe_evaluate ev data) path i (pre ++ x :: rest) = .ok x := by
  induction pre with
  | nil =>
      intro i
      cases rest with
      | nil => simp [op_and_loop, maybe_evaluate, hx]
      | cons r rs => simp [op_and_loop, maybe_evaluate, hx, hxf]
  | cons p' pre' ih =>
      intro i
      have hp' := hpre p' (by simp)
      have hpre' : ∀ y ∈ pre', is_jsonlogic y = false ∧ truthy y = true :=
        fun y hy => hpre y (by simp [hy])
      obtain ⟨z, zs, hzs⟩ : ∃ z zs, pre' ++ x :: rest = z :: zs := by
        cases pre' with
        | nil => exact ⟨x, rest, rfl⟩
        | cons a as => exact ⟨a, as ++ x :: rest, rfl⟩
      rw [List.cons_append, hzs]
      simp [op_and_loop, maybe_evaluate, hp'.1, hp'.2]
      rw [← hzs]
      exact ih hpre' (i + 1)

/-- The op_and loop, fed literal operands whose prefix is all truthy, returns
the evaluation of the final operand. -/
theorem op_and_loop_last (ev : EvalFn) (data : Data) (path : Path)
    (pre : List Value) (x : Value)
    (hpre : ∀ y ∈ pre, is_jsonlogic y = false ∧ truthy y = true)
    (hx : is_jsonlogic x = false) :
    ∀ i : Nat, op_and_loop (maybe_evaluate ev data) path i (pre ++ [x]) = .ok x := by
  induction pre with
  | nil => intro i; simp [op_and_loop, maybe_evaluate, hx]
  | cons p' pre' ih =>
      intro i
      have hp' := hpre p' (by simp)
      have hpre' : ∀ y ∈ pre', is_jsonlogic y = false ∧ truthy y = true :=
        fun y hy => hpre y (by simp [hy])
      obtain ⟨z, zs, hzs⟩ : ∃ z zs, pre' ++ [x] = z :: zs := by
        cases pre' with
        | nil => exact ⟨x, [], rfl⟩
        | cons a as => exact ⟨a, as ++ [x], rfl⟩
      rw [List.cons_append, hzs]
      simp [op_and_loop, maybe_evaluate, hp'.1, hp'.2]
      rw [← hzs]
      exact ih hpre' (i + 1)

/-- The op_or loop, fed a literal falsy prefix and then a literal truthy
operand, returns that operand at once; whatever follows it is never
examined. -/
theorem op_or_loop_first_truthy (ev : EvalFn) (data : Data) (path : Path)
    (pre : List Value) (x : Value) (rest : List Value)
    (hpre : ∀ y ∈ pre, is_jsonlogic y = false ∧ truthy y = false)
    (hx : is_jsonlogic x = false) (hxt : truthy x = true) :
    ∀ i : Nat, op_or_loop (maybe_evaluate ev data) path i (pre ++ x :: rest) = .ok x := by
  induction pre with
  | nil =>
      intro i
      cases rest with
      | nil => simp [op_or_loop, maybe_evaluate, hx]
      | cons r rs => simp [op_or_loop, maybe_evaluate, hx, hxt]
  | cons p' pre' ih =>
      intro i
      have hp' := hpre p' (by simp)
      have hpre' : ∀ y ∈ pre', is_jsonlogic y = false ∧ truthy y = false :=
        fun y hy => hpre y (by simp [hy])
      obtain ⟨z, zs, hzs⟩ : ∃ z zs, pre' ++ x :: rest = z :: zs := by
        cases pre' with
        | nil => exact ⟨x, rest, rfl⟩
        | cons a as => exact ⟨a, as ++ x :: rest, rfl⟩
      rw [List.cons_append, hzs]
      simp [op_or_loop, maybe_evaluate, hp'.1, hp'.2]
      rw [← hzs]
      exact ih hpre' (i + 1)

/-- The op_or loop, fed literal operands whose prefix is all falsy, returns
the evaluation of the final operand. -/
theorem op_or_loop_last (ev : EvalFn) (data : Data) (path : Path)
    (pre : List Value) (x : Value)
    (hpre : ∀ y ∈ pre, is_jsonlogic y = false ∧ truthy y = false)
    (hx : is_jsonlogic x = false) :
    ∀ i : Nat, op_or_loop (maybe_evaluate ev data) path i (pre ++ [x]) = .ok x := by
  induction pre with
  | nil => intro i; simp [op_or_loop, maybe_evaluate, hx]
  | cons p' pre' ih =>
      intro i
      have hp' := hpre p' (by simp)
      have hpre' : ∀ y ∈ pre', is_jsonlogic y = false ∧ truthy y = false :=
        fun y hy => hpre y (by simp [hy])
      obtain ⟨z, zs, hzs⟩ : ∃ z zs, pre' ++ [x] = z :: zs := by
        cases pre' with
        | nil => exact ⟨x, [], rfl⟩
        | cons a as => exact ⟨a, as ++ [x], rfl⟩
      rw [List.cons_append, hzs]
      simp [op_or_loop, maybe_evaluate, hp'.1, hp'.2]
      rw [← hzs]
      exact ih hpre' (i + 1)

/-- Dispatching an and expression with at least two operands runs the op_and
loop. -/
theorem evalN_and (root : Option (List Char)) (fuel : Nat) (data : Data) (path : Path)
    (args : List Value) (h2 : 2 ≤ args.length) :
    evalN root (fuel + 1) data path (.obj [("and", .arr args)])
      = op_and_loop (maybe_evaluate (fun d p v => evalN root fuel d p v) data) path 0 args := by
  have h1 : evalN root (fuel + 1) data path (.obj [("and", .arr args)])
      = if args.length < 2 then .error .typeError
        else op_and_loop (maybe_evaluate (fun d p v => evalN root fuel d p v) data) path 0 args :=
    rfl
  rw [h1, if_neg (by omega)]

/-- Dispatching an or expression with at least two operands runs the op_or
loop. -/
theorem evalN_or (root : Option (List Char)) (fuel : Nat) (data : Data) (path : Path)
    (args : List Value) (h2 : 2 ≤ args.length) :
    evalN root (fuel + 1) data path (.obj [("or", .arr args)])
      = op_or_loop (maybe_evaluate (fun d p v => evalN root fuel d p v) data) path 0 args := by
  have h1 : evalN root (fuel + 1) data path (.obj [("or", .arr args)])
      = if args.length < 2 then .error .typeError
        else op_or_loop (maybe_evaluate (fun d p v => evalN root fuel d p v) data) path 0 args :=
    rfl
  rw [h1, if_neg (by omega)]

/-- C6: for every operand list of two or more operands (stated over lists of
literal, non-JSONLogic operands placed around an arbitrary, possibly
expression-valued tail), the and operator evaluates left to right and returns
the first falsy evaluated value immediately - the operands after it, which are
entirely unconstrained here, are never evaluated - and when all operands are
truthy it returns the last operand's value; symmetrically, or returns the
first truthy evaluated value immediately and otherwise the last evaluated
value. -/
theorem c6_and_or_short_circuit_last_value :
    (∀ (root : Option (List Char)) (fuel : Nat) (data : Data) (path : Path)
       (pre : List Value) (x : Value) (rest : List Value),
       (∀ y ∈ pre, is_jsonlogic y = false ∧ truthy y = true) →
       is_jsonlogic x = false → truthy x = false →
       2 ≤ (pre ++ x :: rest).length →
       evalN root (fuel + 1) data path (.obj [("and", .arr (pre ++ x :: rest))]) = .ok x) ∧
    (∀ (root : Option (List Char)) (fuel : Nat) (data : Data) (path : Path)
       (pre : List Value) (x : Value),
       (∀ y ∈ pre, is_jsonlogic y = false ∧ truthy y = true) →
       is_jsonlogic x = false → truthy x = true →
       2 ≤ (pre ++ [x]).length →
       evalN root (fuel + 1) data path (.obj [("and", .arr (pre ++ [x]))]) = .ok x) ∧
    (∀ (root : Option (List Char)) (fuel : Nat) (data : Data) (path : Path)
       (pre : List Value) (x : Value) (rest : List Value),
       (∀ y ∈ pre, is_jsonlogic y = false ∧ truthy y = false) →
       is_jsonlogic x = false → truthy x = true →
       2 ≤ (pre ++ x :: rest).length →
       evalN root (fuel + 1) data path (.obj [("or", .arr (pre ++ x :: rest))]) = .ok x) ∧
    (∀ (root : Option (List Char)) (fuel : Nat) (data : Data) (path : Path)
       (pre : List Value) (x : Value),
       (∀ y ∈ pre, is_jsonlogic y = false ∧ truthy y = false) →
       is_jsonlogic x = false → truthy x = false →
       2 ≤ (pre ++ [x]).length →
       evalN root (fuel + 1) data path (.obj [("or", .arr (pre ++ [x]))]) = .ok x) := by
  refine ⟨?_, ?_, ?_, ?_⟩
  · intro root fuel data path pre x rest hpre hx hxf hlen
    rw [evalN_and root fuel data path _ hlen]
    exact op_and_loop_first_falsy _ data path pre x rest hpre hx hxf 0
  · intro root fuel data path pre x hpre hx hxt hlen
    rw [evalN_and root fuel data path _ hlen]
    exact op_and_loop_last _ data path pre x hpre hx 0
  · intro root fuel data path pre x rest hpre hx hxt hlen
    rw [evalN_or root fuel data path _ hlen]
    exact op_or_loop_first_truthy _ data path pre x rest hpre hx hxt 0
  · intro root fuel data path pre x hpre hx hxf hlen
    rw [evalN_or root fuel data path _ hlen]
    exact op_or_loop_last _ data path pre x hpre hx 0

/-- Witness for C6 at concrete operand lists.  In the first and third
conjuncts the tail operand {"boom": 1} names an unregistered operator whose
evaluation would fail, so the clean result proves the remaining operands were
never evaluated. -/
theorem c6_and_or_witness :
    evalN none 1 .nullData []
        (.obj [("and", .arr [.int 1, .int 0, .obj [("boom", .int 1)]])]) = .ok (.int 0) ∧
    evalN none 1 .nullData [] (.obj [("and", .arr [.int 1, .int 2])]) = .ok (.int 2) ∧
    evalN none 1 .nullData []
        (.obj [("or", .arr [.int 0, .int 3, .obj [("boom", .int 1)]])]) = .ok (.int 3) ∧
    evalN none 1 .nullData [] (.obj [("or", .arr [.int 0, .bool false])]) = .ok (.bool false) := by
  refine ⟨?_, ?_, ?_, ?_⟩
  · exact c6_and_or_short_circuit_last_value.1 none 0 .nullData []
      [.int 1] (.int 0) [.obj [("boom", .int 1)]] (by decide) rfl rfl (by decide)
  · exact c6_and_or_short_circuit_last_value.2.1 none 0 .nullData []
      [.int 1] (.int 2) (by decide) rfl rfl (by decide)
  · exact c6_and_or_short_circuit_last_value.2.2.1 none 0 .nullData []
      [.int 0] (.int 3) [.obj [("boom", .int 1)]] (by decide) rfl rfl (by decide)
  · exact c6_and_or_short_circuit_last_value.2.2.2 none 0 .nullData []
      [.int 0] (.bool false) (by decide) rfl rfl (by decide)

/-- C9: for every JSON object with exactly one key whose value is not null,
is_jsonlogic accepts it and op_args recovers the operator name and the
argument slots (each element of an array value in order, otherwise the value
as the sole slot); every other JSON value is rejected, stated here as the
converse: whatever is_jsonlogic accepts is such an object. -/
theorem c9_single_key_roundtrip :
    (∀ (op : String) (v : Value), v ≠ .null →
        is_jsonlogic (.obj [(op, v)]) = true ∧
        (∀ xs : List Value, v = .arr xs → op_args (.obj [(op, v)]) = (op, xs)) ∧
        ((∀ xs : List Value, v ≠ .arr xs) → op_args (.obj [(op, v)]) = (op, [v]))) ∧
    (∀ j : Value, is_jsonlogic j = true →
        ∃ (op : String) (v : Value), j = .obj [(op, v)] ∧ v ≠ .null) := by
  constructor
  · intro op v hv
    refine ⟨?_, ?_, ?_⟩
    · cases v with
      | null => exact absurd rfl hv
      | bool b => rfl
      | int n => rfl
      | str s => rfl
      | arr xs => rfl
      | obj kvs => rfl
    · rintro xs rfl
      rfl
    · intro hne
      cases v with
      | arr xs => exact absurd rfl (hne xs)
      | null => rfl
      | bool b => rfl
      | int n => rfl
      | str s => rfl
      | obj kvs => rfl
  · intro j hj
    cases j with
    | obj kvs =>
        cases kvs with
        | nil => simp [is_jsonlogic] at hj
        | cons kv rest =>
            cases rest with
            | nil =>
                obtain ⟨k, v⟩ := kv
                refine ⟨k, v, rfl, ?_⟩
                intro hv
                subst hv
                simp [is_jsonlogic, isNull] at hj
            | cons kv2 rest2 => simp [is_jsonlogic] at hj
    | null => simp [is_jsonlogic] at hj
    | bool b => simp [is_jsonlogic] at hj
    | int n => simp [is_jsonlogic] at hj
    | str s => simp [is_jsonlogic] at hj
    | arr xs => simp [is_jsonlogic] at hj

/-- Witness for C9: the round trip at the concrete expressions
{"merge": [1, 2]} (array value: one slot per element) and {"log": "foo"}
(scalar value: a single slot), and the converse direction at {"!": true}. -/
theorem c9_single_key_roundtrip_witness :
    is_jsonlogic (.obj [("merge", .arr [.int 1, .int 2])]) = true ∧
    op_args (.obj [("merge", .arr [.int 1, .int 2])]) = ("merge", [.int 1, .int 2]) ∧
    op_args (.obj [("log", .str "foo")]) = ("log", [.str "foo"]) ∧
    (∃ (op : String) (v : Value),
        (.obj [("!", .bool true)] : Value) = .obj [(op, v)] ∧ v ≠ .null) := by
  refine ⟨?_, ?_, ?_, ?_⟩
  · exact (c9_single_key_roundtrip.1 "merge" (.arr [.int 1, .int 2])
      (fun h => nomatch h)).1
  · exact (c9_single_key_roundtrip.1 "merge" (.arr [.int 1, .int 2])
      (fun h => nomatch h)).2.1 [.int 1, .int 2] rfl
  · exact (c9_single_key_roundtrip.1 "log" (.str "foo")
      (fun h => nomatch h)).2.2 (fun xs h => nomatch h)
  · exact c9_single_key_roundtrip.2 (.obj [("!", .bool true)]) rfl

/-- C10: for every expression whose operator name is not in the registry,
dispatch raises UnrecognizedOperand carrying the current path and the
offending operator name; the error is raised at the registry lookup, before
any operator body could run. -/
theorem c10_unrecognized_operator :
    ∀ (root : Option (List Char)) (fuel : Nat) (data : Data) (path : Path)
      (op : String) (v : Value),
      registeredOps.contains op = false →
      evalN root (fuel + 1) data path (.obj [(op, v)])
        = .error (.unrecognizedOperand path op) := by
  intro root fuel data path op v h
  cases v <;> simp only [evalN, op_args, dispatchOp, h] <;> rfl

/-- Witness for C10 at the concrete unregistered operator "boom". -/
theorem c10_unrecognized_operator_witness :
    evalN none 1 .nullData [] (.obj [("boom", .int 1)])
      = .error (.unrecognizedOperand [] "boom") :=
  c10_unrecognized_operator none 0 .nullData [] "boom" (.int 1) rfl

end JsonLogic
